import Mathlib

/-!
Verification of the upload handler of `src/app.py` (a Flask app that sends an
uploaded image plus an instruction to an external generative model and stores
the returned image).  The definitions below are a shallow embedding of
`allowed_file` and `upload_file`; effectful collaborators (uuid generation,
`secure_filename`, file saving, `Image.open`, the model call, PNG re-encoding)
are supplied through an explicit environment record whose fields give the
outcome of each call.
-/

/-- Bytes of a binary payload, as a list of byte values. -/
abbrev Bytes := List Nat

/-- One part of a candidate's content in the external response: it may carry
inline binary data (`part.inline_data`) and/or text (`part.text`); an absent
field is `none` (Python `None`). -/
structure RespPart where
  inline_data : Option Bytes
  text : Option String
deriving DecidableEq, Repr

/-- One candidate of the external response; `content.parts` of the Python
object is the `parts` field. -/
structure Candidate where
  parts : List RespPart
deriving DecidableEq, Repr

/-- The external model response: a list of candidates. -/
structure GeminiResponse where
  candidates : List Candidate
deriving DecidableEq, Repr

/-- The uploaded file part of the multipart request (the file entry of
`request.files`), with its `filename` attribute and its content. -/
structure FilePart where
  filename : String
  content : Bytes
deriving DecidableEq, Repr

/-- An incoming request: `file = none` models a request whose files carry
no file entry;
`instruction` is the form field, defaulted to the empty string when the
field is missing (src/app.py line 57). -/
structure UploadRequest where
  file : Option FilePart
  instruction : String
deriving DecidableEq, Repr

/-- Outcomes of the effectful collaborators used by one request.
`unique_id` is `uuid.uuid4().hex`; `secure` is the `secure_filename`
sanitizer of werkzeug; the `Except` fields give the result of each fallible
call (`file.save`, `Image.open(filepath)`, `model.generate_content`,
`Image.open(BytesIO(data))`, `processed_image.save`). -/
structure Env where
  unique_id : String
  secure : String → String
  saveOriginal : Except String Unit
  openImage : Except String Unit
  generate : Except String GeminiResponse
  decodeImage : Bytes → Except String Unit
  savePng : Except String Unit

/-- The HTTP-level result of the handler: a 400 JSON error, a 500 JSON error,
the success JSON payload, or an exception that escaped the handler. -/
inductive HandlerResult where
  | json400 (error : String)
  | json500 (error : String)
  | ok (original_url processed_url instruction : String)
  | unhandled (e : String)
deriving DecidableEq, Repr

/-- Observable outcome of one request: the HTTP result, the list of file
paths written, and the byte payload passed to the image decoder (if the
handler reached that call). -/
structure Outcome where
  result : HandlerResult
  writes : List String
  decoded : Option Bytes
deriving DecidableEq, Repr

/-- The upload directory of src/app.py line 28. -/
def UPLOAD_FOLDER : String := "uploads"

/-- The allowed extension set of src/app.py line 32: png, jpg, jpeg, gif. -/
def ALLOWED_EXTENSIONS : List String := ["png", "jpg", "jpeg", "gif"]

/-- Python membership test of the dot character in a filename string. -/
def containsDot (s : String) : Bool := s.data.contains '.'

/-- Is the character different from `'.'`? (The scan predicate used to split
a filename at its last dot.) -/
def notDot (c : Char) : Bool := c ≠ '.'

/-- The characters after the last dot of `s`: the second component of the
Python one-split from the right at the dot, when `s` contains a dot. -/
def afterLastDot (s : String) : String :=
  ⟨(s.data.reverse.takeWhile notDot).reverse⟩

/-- `l` with everything from its last dot on removed; if there is no dot,
`l` itself: the first component of the Python one-split from the right at
the dot, at the character-list level. -/
def stripLastExtL (l : List Char) : List Char :=
  if '.' ∈ l then ((l.reverse.dropWhile notDot).drop 1).reverse
  else l

/-- String version of `stripLastExtL`. -/
def stripLastExt (s : String) : String := ⟨stripLastExtL s.data⟩

/-- ASCII lowercase of a character, as Python `str.lower` acts on the ASCII
range (the only range that matters for comparison with the ASCII extension
strings). -/
def lowerChar (c : Char) : Char :=
  if 'A' ≤ c ∧ c ≤ 'Z' then Char.ofNat (c.toNat + 32) else c

/-- Python `s.lower()`. -/
def lowerStr (s : String) : String := ⟨s.data.map lowerChar⟩

/-- `allowed_file` (src/app.py lines 34-36): the filename contains a dot
and the lowercased substring after its last dot is an allowed extension. -/
def allowed_file (filename : String) : Bool :=
  containsDot filename &&
    ALLOWED_EXTENSIONS.contains (lowerStr (afterLastDot filename))

/-- The stored name of an upload, unique id then underscore then sanitized
original name (src/app.py line 65). -/
def storedFilename (uid original : String) : String := uid ++ "_" ++ original

/-- The name of the processed result: prefix processed_, then the stored
name with its last extension removed, then suffix .png (src/app.py
line 111). -/
def processedFilename (fname : String) : String :=
  "processed_" ++ stripLastExt fname ++ ".png"

/-- The scan of src/app.py lines 90-94: walk the parts in order and return
the `inline_data` payload of the first part whose `inline_data` is not
`None`, stopping there (`break`). -/
def findInlineData : List RespPart → Option Bytes
  | [] => none
  | p :: rest =>
    match p.inline_data with
    | some d => some d
    | none => findInlineData rest

/-- The text scan of src/app.py lines 98-101: concatenate, in order, the
`text` of every part whose `text` is not `None`. -/
def concatTextParts : List RespPart → String
  | [] => ""
  | p :: rest =>
    (match p.text with
     | some t => t
     | none => "") ++ concatTextParts rest

/-- The detail of the no-image failure (src/app.py line 104): the text
diagnostic, or the word Empty when the diagnostic is the empty string. -/
def noImageDetail (t : String) : String :=
  "The model did not return an image. Response: " ++
    (if t = "" then "Empty" else t)

/-- The 500 error message built by the except branch of src/app.py
line 121 around the detail of the caught exception. -/
def serverErrMsg (e : String) : String :=
  "Failed to process image with AI model. Details: " ++ e

/-- Does the handler's result correspond to an exception that escaped the
handler (no JSON response produced)? -/
def isUnhandled : HandlerResult → Bool
  | .unhandled _ => true
  | _ => false

/-- Shallow embedding of `upload_file` (src/app.py lines 48-129).  The
validation chain, the save of the original file (outside the `try`), the
`try` block (open, model call, response scan, decode, PNG save) with its
`except Exception` funnel to a 500 JSON error, the success payload, and the
final `File type not allowed` fallthrough are translated branch by branch. -/
def upload_file (env : Env) (req : UploadRequest) : Outcome :=
  match req.file with
  | none => ⟨.json400 "No file part", [], none⟩
  | some file =>
    if file.filename = "" then ⟨.json400 "No selected file", [], none⟩
    else if req.instruction = "" then
      ⟨.json400 "Instruction is required", [], none⟩
    else if allowed_file file.filename then
      let original_filename := env.secure file.filename
      let filename := storedFilename env.unique_id original_filename
      let filepath := UPLOAD_FOLDER ++ "/" ++ filename
      match env.saveOriginal with
      | .error e => ⟨.unhandled e, [], none⟩
      | .ok _ =>
        match env.openImage with
        | .error e => ⟨.json500 (serverErrMsg e), [filepath], none⟩
        | .ok _ =>
          match env.generate with
          | .error e => ⟨.json500 (serverErrMsg e), [filepath], none⟩
          | .ok response =>
            match response.candidates with
            | [] =>
              ⟨.json500 (serverErrMsg "list index out of range"), [filepath],
               none⟩
            | cand :: _ =>
              match findInlineData cand.parts with
              | some d =>
                if d.isEmpty then
                  ⟨.json500
                     (serverErrMsg (noImageDetail (concatTextParts cand.parts))),
                   [filepath], none⟩
                else
                  match env.decodeImage d with
                  | .error e => ⟨.json500 (serverErrMsg e), [filepath], some d⟩
                  | .ok _ =>
                    let processed_filename := processedFilename filename
                    let processed_filepath :=
                      UPLOAD_FOLDER ++ "/" ++ processed_filename
                    match env.savePng with
                    | .error e =>
                      ⟨.json500 (serverErrMsg e), [filepath], some d⟩
                    | .ok _ =>
                      ⟨.ok ("/uploads/" ++ filename)
                          ("/uploads/" ++ processed_filename)
                          req.instruction,
                       [filepath, processed_filepath], some d⟩
              | none =>
                ⟨.json500
                   (serverErrMsg (noImageDetail (concatTextParts cand.parts))),
                 [filepath], none⟩
    else ⟨.json400 "File type not allowed or an unexpected error occurred.", [], none⟩

/-- Is the character a lowercase hexadecimal digit (the alphabet of
`uuid.uuid4().hex`)? -/
def isHexChar (c : Char) : Bool := c.isDigit || ('a' ≤ c && c ≤ 'f')

/-- The shape of `uuid.uuid4().hex`: exactly 32 lowercase hex characters. -/
def isUuidHex (s : String) : Prop :=
  s.length = 32 ∧ ∀ c ∈ s.data, isHexChar c

/-! Helper lemmas about the response scans and filename splitting. -/

/-- A character other than the dot satisfies the scan predicate. -/
theorem notDot_eq_true {c : Char} (h : c ≠ '.') : notDot c = true := by
  simp [notDot, h]

/-- The dot itself fails the scan predicate. -/
theorem notDot_dot : notDot '.' = false := by decide

/-- The part scan returns the payload of the first part carrying inline
data, whatever comes after it. -/
theorem findInlineData_first (pre : List RespPart) (p : RespPart) (d : Bytes)
    (post : List RespPart) (hpre : ∀ q ∈ pre, q.inline_data = none)
    (hp : p.inline_data = some d) :
    findInlineData (pre ++ p :: post) = some d := by
  induction pre with
  | nil => simp [findInlineData, hp]
  | cons q rest ih =>
    have hq : q.inline_data = none := hpre q (by simp)
    simp only [List.cons_append, findInlineData, hq]
    exact ih fun r hr => hpre r (by simp [hr])

/-- If no part carries inline data, the part scan returns nothing. -/
theorem findInlineData_none (parts : List RespPart)
    (h : ∀ q ∈ parts, q.inline_data = none) : findInlineData parts = none := by
  induction parts with
  | nil => rfl
  | cons q rest ih =>
    simp only [findInlineData, h q (by simp)]
    exact ih fun r hr => h r (by simp [hr])

/-- If no part carries text, the text scan yields the empty diagnostic. -/
theorem concatTextParts_empty (parts : List RespPart)
    (h : ∀ q ∈ parts, q.text = none) : concatTextParts parts = "" := by
  induction parts with
  | nil => rfl
  | cons q rest ih =>
    simp only [concatTextParts, h q (by simp)]
    rw [ih fun r hr => h r (by simp [hr])]
    rfl

/-- Dropping the non-dot prefix of a list containing a dot leaves a list
headed by the dot. -/
theorem dropWhile_notDot_of_mem (l : List Char) (h : '.' ∈ l) :
    ∃ t, l.dropWhile notDot = '.' :: t := by
  induction l with
  | nil => cases h
  | cons c cs ih =>
    by_cases hc : c = '.'
    · subst hc
      exact ⟨cs, by rw [List.dropWhile_cons, notDot_dot]; rfl⟩
    · have hmem : '.' ∈ cs := by
        rcases List.mem_cons.mp h with h1 | h1
        · exact absurd h1.symm hc
        · exact h1
      obtain ⟨t, ht⟩ := ih hmem
      exact ⟨t, by rw [List.dropWhile_cons, notDot_eq_true hc]; exact ht⟩

/-- When the first block contains a dot, dropping the non-dot prefix of an
append stops inside the first block. -/
theorem dropWhile_notDot_append (l₁ l₂ : List Char) (h : '.' ∈ l₁) :
    (l₁ ++ l₂).dropWhile notDot = l₁.dropWhile notDot ++ l₂ := by
  induction l₁ with
  | nil => cases h
  | cons c cs ih =>
    by_cases hc : c = '.'
    · subst hc
      rw [List.cons_append, List.dropWhile_cons, List.dropWhile_cons, notDot_dot]
      rfl
    · have hmem : '.' ∈ cs := by
        rcases List.mem_cons.mp h with h1 | h1
        · exact absurd h1.symm hc
        · exact h1
      rw [List.cons_append, List.dropWhile_cons, List.dropWhile_cons,
        notDot_eq_true hc]
      exact ih hmem

/-- Splitting off the last extension of a name of the shape
id-underscore-rest keeps the dot-free id and the underscore intact. -/
theorem stripLastExtL_append (a b : List Char) (ha : '.' ∉ a) :
    stripLastExtL (a ++ '_' :: b) = a ++ '_' :: stripLastExtL b := by
  by_cases hb : '.' ∈ b
  · have hmem : '.' ∈ a ++ '_' :: b := by simp [hb]
    obtain ⟨t, ht⟩ := dropWhile_notDot_of_mem b.reverse (List.mem_reverse.mpr hb)
    unfold stripLastExtL
    rw [if_pos hmem, if_pos hb]
    have hrev : (a ++ '_' :: b).reverse = b.reverse ++ '_' :: a.reverse := by
      simp
    rw [hrev, dropWhile_notDot_append _ _ (List.mem_reverse.mpr hb), ht]
    simp
  · have hmem : '.' ∉ a ++ '_' :: b := by
      simp only [List.mem_append, List.mem_cons]
      push_neg
      refine ⟨ha, by decide, hb⟩
    unfold stripLastExtL
    rw [if_neg hmem, if_neg hb]

/-- A uuid hex string contains no dot. -/
theorem dot_not_mem_of_uuidHex {s : String} (h : isUuidHex s) :
    '.' ∉ s.data := by
  intro hm
  have := h.2 '.' hm
  simp [isHexChar, Char.isDigit] at this

/-- The character list of a stored filename. -/
theorem storedFilename_data (uid orig : String) :
    (storedFilename uid orig).data = uid.data ++ '_' :: orig.data := by
  simp [storedFilename, String.data_append]

/-- Removing the last extension of a stored filename with a dot-free id
keeps the id and the separator. -/
theorem stripLastExt_storedFilename (uid orig : String) (h : '.' ∉ uid.data) :
    (stripLastExt (storedFilename uid orig)).data =
      uid.data ++ '_' :: stripLastExtL orig.data := by
  show stripLastExtL (storedFilename uid orig).data = _
  rw [storedFilename_data, stripLastExtL_append _ _ h]

/-! The claims. -/

/-- Claim C1: for every external response, the handler scans the parts of the
first candidate in order and takes the first part whose inline data is
present as the edited image, stopping the scan immediately at that part
(parts after it are never consulted); through the handler this payload is
exactly the one handed to the image decoder, in particular when the first
part is text and the second carries inline data. -/
theorem C1_first_inline_part_wins :
    (∀ (pre : List RespPart) (p : RespPart) (d : Bytes) (post : List RespPart),
      (∀ q ∈ pre, q.inline_data = none) → p.inline_data = some d →
      findInlineData (pre ++ p :: post) = some d) ∧
    (∀ (env : Env) (req : UploadRequest) (f : FilePart) (cand : Candidate)
      (rest : List Candidate) (d : Bytes),
      req.file = some f → f.filename ≠ "" → req.instruction ≠ "" →
      allowed_file f.filename = true →
      env.saveOriginal = .ok () → env.openImage = .ok () →
      env.generate = .ok ⟨cand :: rest⟩ →
      findInlineData cand.parts = some d → d ≠ [] →
      (upload_file env req).decoded = some d) := by
  constructor
  · exact findInlineData_first
  · intro env req f cand rest d hf hn hi ha hs ho hg hfind hd
    have hd' : d.isEmpty = false := by simpa using hd
    simp only [upload_file, hf, hn, hi, ha, hs, ho, hg, hfind, hd',
      if_neg, if_pos, Bool.false_eq_true, ite_false, ite_true]
    cases hdec : env.decodeImage d with
    | error e => simp [hdec]
    | ok u => cases hpng : env.savePng <;> simp [hdec, hpng]

/-- Witness for C1: a response whose first part is text and whose second
part carries the inline payload, which is the one decoded. -/
theorem C1_first_inline_part_wins_witness :
    (upload_file
      ⟨"deadbeef", fun s => s, .ok (), .ok (),
        .ok ⟨[⟨[⟨none, some "hi"⟩, ⟨some [7], none⟩]⟩]⟩,
        fun _ => .ok (), .ok ()⟩
      ⟨some ⟨"a.png", [1]⟩, "go"⟩).decoded = some [7] :=
  C1_first_inline_part_wins.2
    ⟨"deadbeef", fun s => s, .ok (), .ok (),
      .ok ⟨[⟨[⟨none, some "hi"⟩, ⟨some [7], none⟩]⟩]⟩,
      fun _ => .ok (), .ok ()⟩
    ⟨some ⟨"a.png", [1]⟩, "go"⟩ ⟨"a.png", [1]⟩
    ⟨[⟨none, some "hi"⟩, ⟨some [7], none⟩]⟩ [] [7]
    rfl (by decide) (by decide) (by decide) rfl rfl rfl (by decide) (by decide)

/-- Claim C2: when no part of the first candidate carries inline data, the
handler returns a 500 error whose message contains the in-order
concatenation of the text of all text parts, and contains the word Empty
when there is no text part either. -/
theorem C2_no_image_500_diagnostic (env : Env) (req : UploadRequest)
    (f : FilePart) (cand : Candidate) (rest : List Candidate)
    (hf : req.file = some f) (hn : f.filename ≠ "") (hi : req.instruction ≠ "")
    (ha : allowed_file f.filename = true)
    (hs : env.saveOriginal = .ok ()) (ho : env.openImage = .ok ())
    (hg : env.generate = .ok ⟨cand :: rest⟩)
    (hnone : ∀ q ∈ cand.parts, q.inline_data = none) :
    ∃ msg, (upload_file env req).result = .json500 msg ∧
      (∃ a b, msg = a ++ concatTextParts cand.parts ++ b) ∧
      ((∀ q ∈ cand.parts, q.text = none) →
        ∃ a b, msg = a ++ "Empty" ++ b) := by
  have hfind := findInlineData_none cand.parts hnone
  refine ⟨serverErrMsg (noImageDetail (concatTextParts cand.parts)), ?_, ?_, ?_⟩
  · simp [upload_file, hf, hn, hi, ha, hs, ho, hg, hfind]
  · by_cases ht : concatTextParts cand.parts = ""
    · exact ⟨serverErrMsg (noImageDetail (concatTextParts cand.parts)), "", by
        rw [ht]
        rfl⟩
    · refine ⟨"Failed to process image with AI model. Details: The model did not return an image. Response: ",
        "", ?_⟩
      rw [serverErrMsg, noImageDetail, if_neg ht]
      rw [String.append_empty, ← String.append_assoc]
      congr 1
  · intro htext
    have ht := concatTextParts_empty cand.parts htext
    rw [ht]
    exact ⟨"Failed to process image with AI model. Details: The model did not return an image. Response: ",
      "", by rfl⟩

/-- Witness for C2: a response whose single part is a text part. -/
theorem C2_no_image_500_diagnostic_witness :
    ∃ msg,
      (upload_file
        ⟨"deadbeef", fun s => s, .ok (), .ok (),
          .ok ⟨[⟨[⟨none, some "nope"⟩]⟩]⟩, fun _ => .ok (), .ok ()⟩
        ⟨some ⟨"a.png", [1]⟩, "go"⟩).result = .json500 msg ∧
      (∃ a b, msg = a ++ concatTextParts [⟨none, some "nope"⟩] ++ b) ∧
      ((∀ q ∈ [(⟨none, some "nope"⟩ : RespPart)], q.text = none) →
        ∃ a b, msg = a ++ "Empty" ++ b) :=
  C2_no_image_500_diagnostic
    ⟨"deadbeef", fun s => s, .ok (), .ok (),
      .ok ⟨[⟨[⟨none, some "nope"⟩]⟩]⟩, fun _ => .ok (), .ok ()⟩
    ⟨some ⟨"a.png", [1]⟩, "go"⟩ ⟨"a.png", [1]⟩ ⟨[⟨none, some "nope"⟩]⟩ []
    rfl (by decide) (by decide) (by decide) rfl rfl rfl (by decide)

/-- Claim C3: validation is fail-fast in this exact order, each failure
returning its specific 400 message and preventing all later checks:
missing file part, empty filename, missing or empty instruction, extension
not in the allowed set. -/
theorem C3_validation_order :
    (∀ (env : Env) (req : UploadRequest), req.file = none →
      (upload_file env req).result = .json400 "No file part") ∧
    (∀ (env : Env) (req : UploadRequest) (f : FilePart), req.file = some f →
      f.filename = "" →
      (upload_file env req).result = .json400 "No selected file") ∧
    (∀ (env : Env) (req : UploadRequest) (f : FilePart), req.file = some f →
      f.filename ≠ "" → req.instruction = "" →
      (upload_file env req).result = .json400 "Instruction is required") ∧
    (∀ (env : Env) (req : UploadRequest) (f : FilePart), req.file = some f →
      f.filename ≠ "" → req.instruction ≠ "" →
      allowed_file f.filename = false →
      (upload_file env req).result =
        .json400 "File type not allowed or an unexpected error occurred.") := by
  refine ⟨?_, ?_, ?_, ?_⟩
  · intro env req h
    simp [upload_file, h]
  · intro env req f hf hn
    simp [upload_file, hf, hn]
  · intro env req f hf hn hi
    simp [upload_file, hf, hn, hi]
  · intro env req f hf hn hi ha
    simp [upload_file, hf, hn, hi, ha]

/-- Witness for C3: one concrete request per validation failure; the
earlier failure decides even when later checks would also fail. -/
theorem C3_validation_order_witness :
    (upload_file
      ⟨"deadbeef", fun s => s, .ok (), .ok (), .ok ⟨[]⟩, fun _ => .ok (), .ok ()⟩
      ⟨none, ""⟩).result = .json400 "No file part" ∧
    (upload_file
      ⟨"deadbeef", fun s => s, .ok (), .ok (), .ok ⟨[]⟩, fun _ => .ok (), .ok ()⟩
      ⟨some ⟨"", []⟩, ""⟩).result = .json400 "No selected file" ∧
    (upload_file
      ⟨"deadbeef", fun s => s, .ok (), .ok (), .ok ⟨[]⟩, fun _ => .ok (), .ok ()⟩
      ⟨some ⟨"a.png", []⟩, ""⟩).result = .json400 "Instruction is required" ∧
    (upload_file
      ⟨"deadbeef", fun s => s, .ok (), .ok (), .ok ⟨[]⟩, fun _ => .ok (), .ok ()⟩
      ⟨some ⟨"a.bmp", []⟩, "go"⟩).result =
      .json400 "File type not allowed or an unexpected error occurred." :=
  ⟨C3_validation_order.1 _ _ rfl,
   C3_validation_order.2.1 _ _ ⟨"", []⟩ rfl rfl,
   C3_validation_order.2.2.1 _ _ ⟨"a.png", []⟩ rfl (by decide) rfl,
   C3_validation_order.2.2.2 _ _ ⟨"a.bmp", []⟩ rfl (by decide) (by decide)
     (by decide)⟩

/-- Claim C4: every request failing a validation check gets a 400 error and
causes no file write. -/
theorem C4_validation_failure_no_writes (env : Env) (req : UploadRequest)
    (h : req.file = none ∨ ∃ f, req.file = some f ∧
      (f.filename = "" ∨ req.instruction = "" ∨
        allowed_file f.filename = false)) :
    ∃ msg, (upload_file env req).result = .json400 msg ∧
      (upload_file env req).writes = [] := by
  rcases h with h | ⟨f, hf, hrest⟩
  · exact ⟨"No file part", by simp [upload_file, h], by simp [upload_file, h]⟩
  · by_cases h1 : f.filename = ""
    · exact ⟨"No selected file", by simp [upload_file, hf, h1],
        by simp [upload_file, hf, h1]⟩
    · by_cases h2 : req.instruction = ""
      · exact ⟨"Instruction is required", by simp [upload_file, hf, h1, h2],
          by simp [upload_file, hf, h1, h2]⟩
      · have h3 : allowed_file f.filename = false := by tauto
        exact ⟨"File type not allowed or an unexpected error occurred.",
          by simp [upload_file, hf, h1, h2, h3],
          by simp [upload_file, hf, h1, h2, h3]⟩

/-- Witness for C4: an upload with a disallowed extension gets a 400 and
writes nothing. -/
theorem C4_validation_failure_no_writes_witness :
    ∃ msg,
      (upload_file
        ⟨"deadbeef", fun s => s, .ok (), .ok (), .ok ⟨[]⟩,
          fun _ => .ok (), .ok ()⟩
        ⟨some ⟨"a.bmp", [1]⟩, "go"⟩).result = .json400 msg ∧
      (upload_file
        ⟨"deadbeef", fun s => s, .ok (), .ok (), .ok ⟨[]⟩,
          fun _ => .ok (), .ok ()⟩
        ⟨some ⟨"a.bmp", [1]⟩, "go"⟩).writes = [] :=
  C4_validation_failure_no_writes _ _
    (Or.inr ⟨⟨"a.bmp", [1]⟩, rfl, Or.inr (Or.inr (by decide))⟩)

/-- Claim C5: every successful response carries the original URL of the
stored upload named id-underscore-sanitized-name under the file-serving
route, the processed URL of the result named with the processed_ prefix,
the same base without its last extension and a png suffix, and the
instruction echoed unchanged. -/
theorem C5_success_payload (env : Env) (req : UploadRequest) (f : FilePart)
    (o p i : String) (hf : req.file = some f)
    (h : (upload_file env req).result = .ok o p i) :
    o = "/uploads/" ++ storedFilename env.unique_id (env.secure f.filename) ∧
    p = "/uploads/" ++
        processedFilename (storedFilename env.unique_id (env.secure f.filename)) ∧
    i = req.instruction := by
  simp only [upload_file, hf] at h
  repeat' split at h
  all_goals
    first
      | exact HandlerResult.noConfusion h
      | (rw [HandlerResult.ok.injEq] at h
         exact ⟨h.1.symm, h.2.1.symm, h.2.2.symm⟩)

/-- Witness for C5: a concrete successful request and its payload. -/
theorem C5_success_payload_witness :
    "/uploads/deadbeef_a.png" =
      "/uploads/" ++ storedFilename "deadbeef" "a.png" ∧
    "/uploads/processed_deadbeef_a.png" =
      "/uploads/" ++ processedFilename (storedFilename "deadbeef" "a.png") ∧
    "go" = "go" :=
  C5_success_payload
    ⟨"deadbeef", fun s => s, .ok (), .ok (),
      .ok ⟨[⟨[⟨some [7], none⟩]⟩]⟩, fun _ => .ok (), .ok ()⟩
    ⟨some ⟨"a.png", [1]⟩, "go"⟩ ⟨"a.png", [1]⟩
    "/uploads/deadbeef_a.png" "/uploads/processed_deadbeef_a.png" "go"
    rfl (by decide)

/-- Counterexample to C6 as stated: a request that passes all validation but
whose original-file save (outside the try block, src/app.py line 67) fails
escapes the handler unhandled instead of being converted to a JSON error. -/
theorem C6_counterexample :
    allowed_file "a.png" = true ∧
    (upload_file
      ⟨"deadbeef", fun s => s, .error "disk full", .ok (), .ok ⟨[]⟩,
        fun _ => .ok (), .ok ()⟩
      ⟨some ⟨"a.png", [1]⟩, "go"⟩).result = .unhandled "disk full" ∧
    isUnhandled (.unhandled "disk full") = true := by
  refine ⟨by decide, by decide, by decide⟩

/-- Claim C6 amended: every per-request error raised inside the try block
(image open, model invocation, response parsing, image decode, PNG save) is
caught at the handler boundary and converted to a JSON error; only a
failure of the original-file save, which runs after validation and before
the try block, escapes unhandled. -/
theorem C6_caught_after_original_save (env : Env) (req : UploadRequest)
    (hs : env.saveOriginal = .ok ()) :
    isUnhandled (upload_file env req).result = false := by
  cases hreq : req.file with
  | none => simp [upload_file, hreq, isUnhandled]
  | some f =>
    by_cases h1 : f.filename = ""
    · simp [upload_file, hreq, h1, isUnhandled]
    · by_cases h2 : req.instruction = ""
      · simp [upload_file, hreq, h1, h2, isUnhandled]
      · by_cases h3 : allowed_file f.filename
        · simp only [upload_file, hreq, h1, h2, h3, hs]
          cases ho : env.openImage with
          | error e => simp [ho, isUnhandled]
          | ok u =>
            cases hg : env.generate with
            | error e => simp [ho, hg, isUnhandled]
            | ok resp =>
              cases hc : resp.candidates with
              | nil => simp [ho, hg, hc, isUnhandled]
              | cons cand rest =>
                cases hfind : findInlineData cand.parts with
                | none => simp [ho, hg, hc, hfind, isUnhandled]
                | some d =>
                  cases hde : d.isEmpty with
                  | true => simp [ho, hg, hc, hfind, hde, isUnhandled]
                  | false =>
                    cases hdec : env.decodeImage d with
                    | error e => simp [ho, hg, hc, hfind, hde, hdec, isUnhandled]
                    | ok u =>
                      cases hpng : env.savePng <;>
                        simp [ho, hg, hc, hfind, hde, hdec, hpng, isUnhandled]
        · simp [upload_file, hreq, h1, h2, h3, isUnhandled]

/-- Witness for the amended C6: with the original save succeeding, a model
failure is caught and does not escape. -/
theorem C6_caught_after_original_save_witness :
    isUnhandled
      (upload_file
        ⟨"deadbeef", fun s => s, .ok (), .ok (), .error "timeout",
          fun _ => .ok (), .ok ()⟩
        ⟨some ⟨"a.png", [1]⟩, "go"⟩).result = false :=
  C6_caught_after_original_save
    ⟨"deadbeef", fun s => s, .ok (), .ok (), .error "timeout",
      fun _ => .ok (), .ok ()⟩
    ⟨some ⟨"a.png", [1]⟩, "go"⟩ rfl

/-- Claim C7: two uploads with the same original filename but distinct
freshly generated unique ids (32 hex characters each) are stored under
distinct original paths and distinct processed paths. -/
theorem C7_unique_id_distinct_paths (id1 id2 name : String)
    (h1 : isUuidHex id1) (h2 : isUuidHex id2) (hne : id1 ≠ id2) :
    storedFilename id1 name ≠ storedFilename id2 name ∧
    processedFilename (storedFilename id1 name) ≠
      processedFilename (storedFilename id2 name) := by
  have hlen : id1.data.length = id2.data.length := by
    show id1.length = id2.length
    rw [h1.1, h2.1]
  constructor
  · intro h
    apply hne
    apply String.ext
    have hd := congrArg String.data h
    rw [storedFilename_data, storedFilename_data] at hd
    exact (List.append_inj hd hlen).1
  · intro h
    apply hne
    apply String.ext
    have hd := congrArg String.data h
    simp only [processedFilename, String.data_append] at hd
    have hd2 : (stripLastExt (storedFilename id1 name)).data =
        (stripLastExt (storedFilename id2 name)).data := by simpa using hd
    rw [stripLastExt_storedFilename _ _ (dot_not_mem_of_uuidHex h1),
      stripLastExt_storedFilename _ _ (dot_not_mem_of_uuidHex h2)] at hd2
    exact (List.append_inj hd2 hlen).1

/-- Witness for C7: two concrete 32-character hex ids and one shared
original name. -/
theorem C7_unique_id_distinct_paths_witness :
    storedFilename "aaaaaaaaaaaaaaaaaaaaaaaaaaaaaaaa" "cat.png" ≠
      storedFilename "0123456789abcdef0123456789abcdef" "cat.png" ∧
    processedFilename
        (storedFilename "aaaaaaaaaaaaaaaaaaaaaaaaaaaaaaaa" "cat.png") ≠
      processedFilename
        (storedFilename "0123456789abcdef0123456789abcdef" "cat.png") :=
  C7_unique_id_distinct_paths "aaaaaaaaaaaaaaaaaaaaaaaaaaaaaaaa"
    "0123456789abcdef0123456789abcdef" "cat.png"
    (by constructor <;> decide) (by constructor <;> decide) (by decide)

/-- Counterexample to C8 as stated: a request whose instruction is a single
space (empty after trimming) is not rejected; it passes validation and
succeeds, echoing the whitespace instruction. -/
theorem C8_counterexample :
    (upload_file
      ⟨"deadbeef", fun s => s, .ok (), .ok (),
        .ok ⟨[⟨[⟨some [7], none⟩]⟩]⟩, fun _ => .ok (), .ok ()⟩
      ⟨some ⟨"a.png", [1]⟩, " "⟩).result =
      .ok "/uploads/deadbeef_a.png" "/uploads/processed_deadbeef_a.png" " " := by
  decide

/-- Claim C8 amended: the instruction check rejects exactly the empty
instruction; an instruction that is non-empty, even one consisting only of
whitespace, passes the instruction check (the code performs no trimming). -/
theorem C8_instruction_check_empty_only (env : Env) (req : UploadRequest)
    (f : FilePart) (hf : req.file = some f) (hn : f.filename ≠ "") :
    (req.instruction = "" →
      (upload_file env req).result = .json400 "Instruction is required") ∧
    (req.instruction ≠ "" →
      (upload_file env req).result ≠ .json400 "Instruction is required") := by
  constructor
  · intro hi
    simp [upload_file, hf, hn, hi]
  · intro hi
    by_cases h3 : allowed_file f.filename
    · simp only [upload_file, hf, hn, hi, h3]
      cases hs : env.saveOriginal with
      | error e => simp
      | ok u =>
        cases ho : env.openImage with
        | error e => simp [ho, serverErrMsg]
        | ok v =>
          cases hg : env.generate with
          | error e => simp [ho, hg, serverErrMsg]
          | ok resp =>
            cases hc : resp.candidates with
            | nil => simp [ho, hg, hc, serverErrMsg]
            | cons cand rest =>
              cases hfind : findInlineData cand.parts with
              | none => simp [ho, hg, hc, hfind, serverErrMsg]
              | some d =>
                cases hde : d.isEmpty with
                | true => simp [ho, hg, hc, hfind, hde, serverErrMsg]
                | false =>
                  cases hdec : env.decodeImage d with
                  | error e => simp [ho, hg, hc, hfind, hde, hdec, serverErrMsg]
                  | ok u =>
                    cases hpng : env.savePng <;>
                      simp [ho, hg, hc, hfind, hde, hdec, hpng, serverErrMsg]
    · simp [upload_file, hf, hn, hi, h3]

/-- Witness for the amended C8: a whitespace-only instruction is not
rejected by the instruction check. -/
theorem C8_instruction_check_empty_only_witness :
    ((" " : String) = "" →
      (upload_file
        ⟨"deadbeef", fun s => s, .ok (), .ok (),
          .ok ⟨[⟨[⟨some [7], none⟩]⟩]⟩, fun _ => .ok (), .ok ()⟩
        ⟨some ⟨"a.png", [1]⟩, " "⟩).result =
        .json400 "Instruction is required") ∧
    ((" " : String) ≠ "" →
      (upload_file
        ⟨"deadbeef", fun s => s, .ok (), .ok (),
          .ok ⟨[⟨[⟨some [7], none⟩]⟩]⟩, fun _ => .ok (), .ok ()⟩
        ⟨some ⟨"a.png", [1]⟩, " "⟩).result ≠
        .json400 "Instruction is required") :=
  C8_instruction_check_empty_only
    ⟨"deadbeef", fun s => s, .ok (), .ok (),
      .ok ⟨[⟨[⟨some [7], none⟩]⟩]⟩, fun _ => .ok (), .ok ()⟩
    ⟨some ⟨"a.png", [1]⟩, " "⟩ ⟨"a.png", [1]⟩ rfl (by decide)

/-- Claim C9: extension validation requires a dot and compares only the
lowercased substring after the last dot: a dotless filename is rejected
with the file-type 400 while uppercase extensions such as PNG or JPG are
accepted. -/
theorem C9_extension_check :
    (∀ s : String, containsDot s = false → allowed_file s = false) ∧
    (∀ (env : Env) (req : UploadRequest) (f : FilePart), req.file = some f →
      f.filename ≠ "" → req.instruction ≠ "" →
      containsDot f.filename = false →
      (upload_file env req).result =
        .json400 "File type not allowed or an unexpected error occurred.") ∧
    allowed_file "a.PNG" = true ∧ allowed_file "b.JPG" = true ∧
    (∀ s : String, allowed_file s =
      (containsDot s &&
        ALLOWED_EXTENSIONS.contains (lowerStr (afterLastDot s)))) := by
  refine ⟨?_, ?_, by decide, by decide, fun s => rfl⟩
  · intro s h
    simp [allowed_file, h]
  · intro env req f hf hn hi h
    have ha : allowed_file f.filename = false := by simp [allowed_file, h]
    simp [upload_file, hf, hn, hi, ha]

/-- Witness for C9: a concrete dotless filename is rejected with the
file-type 400. -/
theorem C9_extension_check_witness :
    (upload_file
      ⟨"deadbeef", fun s => s, .ok (), .ok (), .ok ⟨[]⟩,
        fun _ => .ok (), .ok ()⟩
      ⟨some ⟨"noext", [1]⟩, "go"⟩).result =
      .json400 "File type not allowed or an unexpected error occurred." :=
  C9_extension_check.2.1 _ _ ⟨"noext", [1]⟩ rfl (by decide) (by decide)
    (by decide)

/-- Claim C10: when the first inline-data part of the first candidate holds
an empty byte string, the scan stops there and the handler takes the
no-image 500 error path built from the text parts, never reaching the
decoder (falsy inline data counts as no image). -/
theorem C10_empty_inline_data_error_path (env : Env) (req : UploadRequest)
    (f : FilePart) (cand : Candidate) (rest : List Candidate)
    (pre : List RespPart) (p : RespPart) (post : List RespPart)
    (hf : req.file = some f) (hn : f.filename ≠ "") (hi : req.instruction ≠ "")
    (ha : allowed_file f.filename = true)
    (hs : env.saveOriginal = .ok ()) (ho : env.openImage = .ok ())
    (hg : env.generate = .ok ⟨cand :: rest⟩)
    (hparts : cand.parts = pre ++ p :: post)
    (hpre : ∀ q ∈ pre, q.inline_data = none)
    (hp : p.inline_data = some ([] : Bytes)) :
    (upload_file env req).result =
      .json500 (serverErrMsg (noImageDetail (concatTextParts cand.parts))) ∧
    (upload_file env req).decoded = none := by
  have hfind : findInlineData cand.parts = some [] := by
    rw [hparts]
    exact findInlineData_first pre p [] post hpre hp
  constructor <;> simp [upload_file, hf, hn, hi, ha, hs, ho, hg, hfind]

/-- Witness for C10: the first part carries empty inline data and a later
part carries a non-empty payload, yet the handler takes the error path
and decodes nothing. -/
theorem C10_empty_inline_data_error_path_witness :
    (upload_file
      ⟨"deadbeef", fun s => s, .ok (), .ok (),
        .ok ⟨[⟨[⟨some [], some "t"⟩, ⟨some [9], none⟩]⟩]⟩,
        fun _ => .ok (), .ok ()⟩
      ⟨some ⟨"a.png", [1]⟩, "go"⟩).result =
      .json500 (serverErrMsg (noImageDetail
        (concatTextParts [⟨some [], some "t"⟩, ⟨some [9], none⟩]))) ∧
    (upload_file
      ⟨"deadbeef", fun s => s, .ok (), .ok (),
        .ok ⟨[⟨[⟨some [], some "t"⟩, ⟨some [9], none⟩]⟩]⟩,
        fun _ => .ok (), .ok ()⟩
      ⟨some ⟨"a.png", [1]⟩, "go"⟩).decoded = none :=
  C10_empty_inline_data_error_path
    ⟨"deadbeef", fun s => s, .ok (), .ok (),
      .ok ⟨[⟨[⟨some [], some "t"⟩, ⟨some [9], none⟩]⟩]⟩,
      fun _ => .ok (), .ok ()⟩
    ⟨some ⟨"a.png", [1]⟩, "go"⟩ ⟨"a.png", [1]⟩
    ⟨[⟨some [], some "t"⟩, ⟨some [9], none⟩]⟩ [] []
    ⟨some [], some "t"⟩ [⟨some [9], none⟩]
    rfl (by decide) (by decide) (by decide) rfl rfl rfl rfl
    (by intro q hq; cases hq) rfl
